import Mathlib

/-!
Verification of the adaptive tiling search engine in
`src/public/nodejs/index.js` (functions `adaptiveTilingSearch`,
`formatPlace` and the `/api/places/adaptive` HTTP handler).

Numbers that the JavaScript source manipulates as IEEE doubles are
modelled as rationals (`ℚ`); the only transcendental operations the
algorithm uses — `Math.cos` in the child-offset computation and the
haversine distance in `formatPlace` — never influence control flow, so
they are threaded through as abstract function parameters (`cosd`,
`dist`).  The external places provider is modelled as a function from
the call index and the queried tile to `Option (List Place)`: `none`
models a request that throws (timeout, authorization or transport
error, all caught by the `try/catch` in the source), `some places`
models a successful response.
-/

namespace AdaptiveTiling

/-- Geographic coordinates, as in the `location` field of a provider
result (`{latitude, longitude}`). -/
structure Location where
  latitude : ℚ
  longitude : ℚ
  deriving Repr, DecidableEq

/-- One raw result object of the provider, with exactly the fields
`adaptiveTilingSearch` reads from a `place`.  Optional fields of the
JSON payload are `Option`s. -/
structure Place where
  id : String
  displayName : Option String
  primaryType : Option String
  location : Option Location
  formattedAddress : Option String
  rating : Option ℚ
  userRatingCount : Option ℕ
  weekdayDescriptions : Option (List String)
  googleMapsUri : Option String
  deriving Repr, DecidableEq

/-- The record stored in the `seenPlaces` map for a newly seen place
(source lines 118–128). -/
structure PlaceRecord where
  id : String
  name : String
  type : Option String
  location : Option Location
  address : Option String
  rating : ℚ
  reviewCount : ℕ
  openingHours : List String
  googleMapsUri : Option String
  deriving Repr, DecidableEq

/-- Building the stored record from a raw place, mirroring the object
literal at source lines 118–128.  JavaScript `x || d` yields `d` both
when `x` is absent and when it is falsy (the empty string, zero), which
the `Option` matches reproduce. -/
def toRecord (p : Place) : PlaceRecord :=
  { id := p.id
    name := match p.displayName with
      | some s => if s = "" then "Unknown" else s
      | none => "Unknown"
    type := p.primaryType
    location := p.location
    address := p.formattedAddress
    rating := p.rating.getD 0
    reviewCount := p.userRatingCount.getD 0
    openingHours := p.weekdayDescriptions.getD []
    googleMapsUri := p.googleMapsUri }

/-- A work-queue tile: circular search region plus recursion depth. -/
structure Tile where
  lat : ℚ
  lng : ℚ
  radius : ℚ
  depth : ℕ
  deriving Repr, DecidableEq

/-- The four children pushed at source lines 134–141, with the overlap
factor left as a parameter `f` (the source hard-codes `0.7`; the spec
calls it `OVERLAP_FACTOR`).  `cosd` models `fun x => Math.cos (x * π / 180)`. -/
def childrenWithFactor (f : ℚ) (cosd : ℚ → ℚ) (tile : Tile) : List Tile :=
  let childRadius := tile.radius / 2
  let offset := childRadius * f / 111320
  let lngOffset := offset / cosd tile.lat
  [ { lat := tile.lat + offset, lng := tile.lng - lngOffset
      radius := childRadius, depth := tile.depth + 1 }
  , { lat := tile.lat + offset, lng := tile.lng + lngOffset
      radius := childRadius, depth := tile.depth + 1 }
  , { lat := tile.lat - offset, lng := tile.lng - lngOffset
      radius := childRadius, depth := tile.depth + 1 }
  , { lat := tile.lat - offset, lng := tile.lng + lngOffset
      radius := childRadius, depth := tile.depth + 1 } ]

/-- The children actually produced by the source, `OVERLAP_FACTOR = 0.7`. -/
def children (cosd : ℚ → ℚ) (tile : Tile) : List Tile :=
  childrenWithFactor (7 / 10) cosd tile

/-- Squared distance in meters between two lat/lng points, under the
degree-to-meter conversion the subdivision code itself uses: one degree
of latitude is 111320 m, one degree of longitude is 111320 m scaled by
the cosine `c` of the latitude (source lines 136–137). -/
def distSqMeters (c : ℚ) (lat1 lng1 lat2 lng2 : ℚ) : ℚ :=
  ((lat2 - lat1) * 111320) ^ 2 + ((lng2 - lng1) * 111320 * c) ^ 2

/-- Inserting one successful response item into the `seenPlaces`
registry (source lines 116–130): a place whose id is already present is
skipped, otherwise the built record is appended (JavaScript `Map`
preserves insertion order, so the registry is a list). -/
def insertPlace (seen : List PlaceRecord) (p : Place) : List PlaceRecord :=
  if seen.any fun r => r.id = p.id then seen else seen ++ [toRecord p]

/-- Folding a whole response into the registry, in response order. -/
def insertPlaces (seen : List PlaceRecord) (places : List Place) : List PlaceRecord :=
  places.foldl insertPlace seen

/-- The mutable state of one traversal of `adaptiveTilingSearch`: the
FIFO work queue, the `seenPlaces` registry, and the `apiCalls` counter. -/
structure SearchState where
  queue : List Tile
  seen : List PlaceRecord
  apiCalls : ℕ
  deriving Repr, DecidableEq

/-- A provider behaviour: given the current value of `apiCalls` (the
index of the call) and the queried tile, either fail (`none`, modelling
a thrown/caught error) or return the response list. -/
def Provider : Type :=
  ℕ → Tile → Option (List Place)

/-- One iteration of the `while` loop of `adaptiveTilingSearch`
(source lines 109–145): dequeue the head tile, count the call, query
the provider; on success insert every returned place and subdivide iff
the response has at least 20 items, the radius exceeds
`MIN_RADIUS = 500` and the depth is below `MAX_DEPTH = 5`; on failure
change nothing but the dequeue and the counter. -/
def stepTile (cosd : ℚ → ℚ) (provider : Provider) (s : SearchState) : SearchState :=
  match s.queue with
  | [] => s
  | tile :: rest =>
    match provider s.apiCalls tile with
    | none => { queue := rest, seen := s.seen, apiCalls := s.apiCalls + 1 }
    | some places =>
      { queue :=
          if places.length ≥ 20 ∧ tile.radius > 500 ∧ tile.depth < 5 then
            rest ++ children cosd tile
          else rest
        seen := insertPlaces s.seen places
        apiCalls := s.apiCalls + 1 }

/-- The `while (queue.length > 0 && apiCalls < 200)` loop, written with
explicit fuel; `runAux_succ_of_fuel` below shows any fuel of at least
`200 - s.apiCalls` yields the loop's fixed point, so the fuel is not an
artificial bound. -/
def runAux (cosd : ℚ → ℚ) (provider : Provider) : ℕ → SearchState → SearchState
  | 0, s => s
  | fuel + 1, s =>
    if 0 < s.queue.length ∧ s.apiCalls < 200 then
      runAux cosd provider fuel (stepTile cosd provider s)
    else s

/-- The initial traversal state: the queue seeded with the request disc
at depth 0, empty registry, zero calls (source lines 104–107). -/
def initState (lat lng radiusMeters : ℚ) : SearchState :=
  { queue := [{ lat := lat, lng := lng, radius := radiusMeters, depth := 0 }]
    seen := []
    apiCalls := 0 }

/-- Traversal metrics, as returned at source line 150. -/
structure Metrics where
  apiCalls : ℕ
  uniquePlaces : ℕ
  deriving Repr, DecidableEq

/-- The value of one `adaptiveTilingSearch` traversal: the registry
values in insertion order plus the metrics. -/
structure SearchOutcome where
  places : List PlaceRecord
  metrics : Metrics
  deriving Repr, DecidableEq

/-- The whole of `adaptiveTilingSearch` (source lines 101–152). -/
def adaptiveTilingSearch (cosd : ℚ → ℚ) (provider : Provider)
    (lat lng radiusMeters : ℚ) : SearchOutcome :=
  let final := runAux cosd provider 200 (initState lat lng radiusMeters)
  { places := final.seen
    metrics := { apiCalls := final.apiCalls, uniquePlaces := final.seen.length } }

/-- The response item shape built by `formatPlace` (source lines 155–178). -/
structure FormattedPlace where
  name : String
  address : String
  location : Location
  rating : ℚ
  reviewCount : ℕ
  distance : ℚ
  openingHours : List String
  googleMapsUrl : String
  placeId : String
  type : Option String
  deriving Repr, DecidableEq

/-- The `formatPlace` function.  `dist` abstracts the haversine helper
`calculateDistance`; when the stored week has exactly 7 entries the
Sunday entry (index 6) is rotated to the front; a missing or empty
`googleMapsUri` yields the empty URL, otherwise `?hl=he` is appended. -/
def formatPlace (dist : ℚ → ℚ → ℚ → ℚ → ℚ) (searchLat searchLng : ℚ)
    (p : PlaceRecord) : FormattedPlace :=
  let lat := match p.location with | some loc => loc.latitude | none => 0
  let lng := match p.location with | some loc => loc.longitude | none => 0
  let openingHours :=
    if p.openingHours.length = 7 then p.openingHours.drop 6 ++ p.openingHours.take 6
    else p.openingHours
  { name := p.name
    address := p.address.getD ""
    location := { latitude := lat, longitude := lng }
    rating := p.rating
    reviewCount := p.reviewCount
    distance := dist searchLat searchLng lat lng
    openingHours := openingHours
    googleMapsUrl := match p.googleMapsUri with
      | some u => if u = "" then "" else u ++ "?hl=he"
      | none => ""
    placeId := p.id
    type := p.type }

/-- The category groups chosen from the `type` query parameter
(source lines 230–232). -/
def typeGroups (type : String) : List (List String) :=
  if type = "restaurant" then [["restaurant"]]
  else if type = "cafe" then [["cafe", "coffee_shop"]]
  else [["restaurant"], ["cafe", "coffee_shop"]]

/-- The provider as the handler sees it: each category group gets its
own behaviour (the group is part of every query the traversal issues). -/
def GroupProvider : Type :=
  List String → Provider

/-- The per-group traversal outcomes collected by the handler loop
(source lines 237–241). -/
def groupOutcomes (cosd : ℚ → ℚ) (provider : GroupProvider)
    (lat lng radiusMeters : ℚ) (type : String) : List SearchOutcome :=
  (typeGroups type).map fun types =>
    adaptiveTilingSearch cosd (provider types) lat lng radiusMeters

/-- The concatenation `allPlaces` built by `allPlaces.push(...result.places)`. -/
def allPlacesOf (cosd : ℚ → ℚ) (provider : GroupProvider)
    (lat lng radiusMeters : ℚ) (type : String) : List PlaceRecord :=
  (groupOutcomes cosd provider lat lng radiusMeters type).foldl
    (fun acc r => acc ++ r.places) []

/-- The accumulation `totalMetrics.apiCalls += result.metrics.apiCalls`;
note the loop adds nothing to `totalMetrics.uniquePlaces`. -/
def totalApiCalls (cosd : ℚ → ℚ) (provider : GroupProvider)
    (lat lng radiusMeters : ℚ) (type : String) : ℕ :=
  (groupOutcomes cosd provider lat lng radiusMeters type).foldl
    (fun acc r => acc + r.metrics.apiCalls) 0

/-- The `seen`-set dedup filter at source lines 246–251: keep the first
occurrence of each id, drop every later one. -/
def dedupById (l : List PlaceRecord) : List PlaceRecord :=
  l.foldl (fun acc p => if acc.any fun r => r.id = p.id then acc else acc ++ [p]) []

/-- The sort comparator at source line 255, `(a, b) => b.rating -
a.rating || b.reviewCount - a.reviewCount`, rendered as the relation
"the comparator does not put `a` after `b`" (comparator value ≤ 0). -/
def jsCompareLe (a b : FormattedPlace) : Bool :=
  decide (b.rating < a.rating ∨ (a.rating = b.rating ∧ b.reviewCount ≤ a.reviewCount))

/-- The deduplicated, formatted and threshold-filtered list the handler
builds just before sorting (source lines 246–254). -/
def formattedOf (cosd : ℚ → ℚ) (dist : ℚ → ℚ → ℚ → ℚ → ℚ)
    (provider : GroupProvider) (lat lng radius : ℚ) (type : String)
    (minRating : ℚ) (minReviews : ℕ) : List FormattedPlace :=
  let radiusMeters := radius * 1000
  let unique := dedupById (allPlacesOf cosd provider lat lng radiusMeters type)
  (unique.map (formatPlace dist lat lng)).filter fun p =>
    decide (minRating ≤ p.rating ∧ minReviews ≤ p.reviewCount)

/-- The success payload of the `/api/places/adaptive` handler
(source lines 258–266; the fields the claims are about). -/
structure ResponseBody where
  location : Location
  totalFound : ℕ
  afterFilters : ℕ
  places : List FormattedPlace
  metrics : Metrics
  deriving Repr, DecidableEq

/-- Outcome of the handler once past the rate-limit and api-key guards. -/
inductive HandlerOutcome where
  | invalidCoordinates
  | ok (body : ResponseBody)
  deriving Repr, DecidableEq

/-- The query parameters of one request to `/api/places/adaptive`.
A `none` latitude or longitude models a missing or unparseable
parameter (`parseFloat` yields `NaN`); a `none` in the remaining fields
models a missing parameter, for which the source substitutes defaults
`15`, `both`, `4.5`, `100` before parsing. -/
structure AdaptiveQuery where
  latitude : Option ℚ
  longitude : Option ℚ
  radius : Option ℚ
  type : Option String
  minRating : Option ℚ
  minReviews : Option ℕ
  deriving Repr, DecidableEq

/-- The `/api/places/adaptive` handler body (source lines 216–267):
reject when either coordinate is `NaN`, otherwise run one traversal per
category group, merge, dedup, format, filter, sort, and answer with the
list and the accumulated metrics (whose `uniquePlaces` field is the
untouched initial 0). -/
def adaptiveHandler (cosd : ℚ → ℚ) (dist : ℚ → ℚ → ℚ → ℚ → ℚ)
    (provider : GroupProvider) (q : AdaptiveQuery) : HandlerOutcome :=
  match q.latitude, q.longitude with
  | some lat, some lng =>
    let radius := q.radius.getD 15
    let type := q.type.getD "both"
    let minRating := q.minRating.getD (45 / 10)
    let minReviews := q.minReviews.getD 100
    let radiusMeters := radius * 1000
    let unique := dedupById (allPlacesOf cosd provider lat lng radiusMeters type)
    let formatted := formattedOf cosd dist provider lat lng radius type minRating minReviews
    HandlerOutcome.ok
      { location := { latitude := lat, longitude := lng }
        totalFound := unique.length
        afterFilters := formatted.length
        places := formatted.mergeSort jsCompareLe
        metrics :=
          { apiCalls := totalApiCalls cosd provider lat lng radiusMeters type
            uniquePlaces := 0 } }
  | _, _ => HandlerOutcome.invalidCoordinates

/-! ## Concrete scenario material -/

/-- A minimal provider result used by the concrete scenarios. -/
def samplePlace (id : String) (rating : ℚ) (reviewCount : ℕ) : Place :=
  { id := id
    displayName := some ("Place " ++ id)
    primaryType := some "restaurant"
    location := some { latitude := 32, longitude := 34 }
    formattedAddress := some "addr"
    rating := some rating
    userRatingCount := some reviewCount
    weekdayDescriptions := none
    googleMapsUri := some ("maps/" ++ id) }

/-- A response filled exactly to the provider capacity of 20. -/
def fullResponse : List Place :=
  List.replicate 20 (samplePlace "cap" 4 10)

/-- The inexhaustible stub of the spec: every query succeeds and always
reports a capacity-sized (truncated) result. -/
def alwaysFull : Provider := fun _ _ => some fullResponse

/-- A provider on which every query fails. -/
def alwaysFail : Provider := fun _ _ => none

/-- A provider that answers every query with one fixed place. -/
def oneShot : Provider := fun _ _ => some [samplePlace "a" 5 1]

/-- Node count of the complete 4-ary tree of height `k`; the potential
of a queued tile with `MAX_DEPTH − depth = k` levels of subdivision
left. -/
def treeN : ℕ → ℕ
  | 0 => 1
  | k + 1 => 1 + 4 * treeN k

/-- Queue potential of a traversal state: total tree capacity of the
queued tiles under the depth ceiling 5.  Against `alwaysFull` each loop
iteration lowers it by exactly one, so it counts the iterations left
before the queue can empty. -/
def phi (s : SearchState) : ℕ :=
  (s.queue.map fun t => treeN (5 - t.depth)).sum

/-- The tiles reachable in the `alwaysFull` scenario started from a
15000 m disc: depth at most 5, and below the ceiling enough radius to
keep every permitted subdivision going. -/
def goodTile (t : Tile) : Prop :=
  t.depth ≤ 5 ∧ (t.depth < 5 → t.radius > 500 * 2 ^ (4 - t.depth))

/-- Projection used to observe the consumed budget of a handler
outcome: the reported `apiCalls` metric, 0 when the request was
rejected without a body. -/
def handlerApiCalls : HandlerOutcome → ℕ
  | HandlerOutcome.invalidCoordinates => 0
  | HandlerOutcome.ok body => body.metrics.apiCalls

/-- A request with well-formed coordinates and a negative radius. -/
def qNegRadius : AdaptiveQuery :=
  { latitude := some 32
    longitude := some 34
    radius := some (-5)
    type := some "both"
    minRating := none
    minReviews := none }

/-- A request whose latitude parameter is missing or unparseable. -/
def qNoLat : AdaptiveQuery :=
  { latitude := none
    longitude := some 34
    radius := some 10
    type := none
    minRating := none
    minReviews := none }

/-- A plain restaurant request with defaults. -/
def qSimple : AdaptiveQuery :=
  { latitude := some 0
    longitude := some 0
    radius := none
    type := some "restaurant"
    minRating := none
    minReviews := none }

/-! ## Geometry of the subdivision (claims C1 and C4) -/

/-- Both coordinate displacements of every child have magnitude
`offsetMeters = 0.7 × childRadius` in the meter model, so each child
center sits at squared distance `2 × offsetMeters²` from the parent
center whenever the cosine factor is nonzero. -/
theorem distSq_children (cosd : ℚ → ℚ) (t : Tile) (hc : cosd t.lat ≠ 0) :
    ∀ child ∈ children cosd t,
      distSqMeters (cosd t.lat) t.lat t.lng child.lat child.lng
        = 2 * ((7 / 10) * (t.radius / 2)) ^ 2 := by
  intro child hchild
  simp only [children, childrenWithFactor, List.mem_cons, List.mem_singleton,
    List.not_mem_nil, or_false] at hchild
  rcases hchild with h | h | h | h <;> subst h <;>
    simp only [distSqMeters] <;> field_simp <;> ring

/-- C1.  Every parent tile subdivided with `OVERLAP_FACTOR = 0.7` keeps
its own center point inside at least one child disc: the squared
distance from the parent center to some child center (in fact every
child center) is at most the squared child radius, so an entity at the
parent center is found by at least one child. -/
theorem c1_parent_center_covered (cosd : ℚ → ℚ) (t : Tile) :
    ∃ child ∈ children cosd t,
      distSqMeters (cosd t.lat) t.lat t.lng child.lat child.lng
        ≤ (t.radius / 2) ^ 2 := by
  by_cases hc : cosd t.lat = 0
  · refine ⟨_, List.mem_cons_self _ _, ?_⟩
    simp only [children, childrenWithFactor, distSqMeters, hc, div_zero]
    ring_nf
    nlinarith [sq_nonneg t.radius]
  · refine ⟨_, List.mem_cons_self _ _, ?_⟩
    have h := distSq_children cosd t hc _ (List.mem_cons_self _ _)
    rw [h]
    nlinarith [sq_nonneg t.radius]

/-- C4, counterexample.  For the parent tile centered at `(0, 0)` with
radius 1000 m (child radius 500 m, `offsetMeters = 0.7 × 500 = 350`)
and cosine factor 1, every child center sits at squared distance
245000 m² from the parent center — not `offsetMeters² = 122500 m²` as
the claim states: the child is displaced by `offsetMeters` in latitude
and in longitude simultaneously, so the distance is `√2 × offsetMeters`.
Consequently `OVERLAP_FACTOR ≤ 1` does not suffice for the parent
center to lie in any child disc: with factor `0.8` (≤ 1) every child
center is farther than the child radius (squared distance
320000 > 250000 = 500²). -/
theorem c4_counterexample :
    ((children (fun _ => (1 : ℚ)) { lat := 0, lng := 0, radius := 1000, depth := 0 }).map
        fun child => distSqMeters 1 0 0 child.lat child.lng)
      = [245000, 245000, 245000, 245000]
    ∧ ((7 : ℚ) / 10 * (1000 / 2)) ^ 2 = 122500
    ∧ (245000 : ℚ) ≠ 122500
    ∧ ((childrenWithFactor (8 / 10) (fun _ => (1 : ℚ))
          { lat := 0, lng := 0, radius := 1000, depth := 0 }).map
        fun child => distSqMeters 1 0 0 child.lat child.lng)
      = [320000, 320000, 320000, 320000]
    ∧ ¬ ((320000 : ℚ) ≤ ((1000 : ℚ) / 2) ^ 2) := by
  refine ⟨?_, by norm_num, by norm_num, ?_, by norm_num⟩ <;>
    simp [children, childrenWithFactor, distSqMeters] <;> norm_num

/-- C4 as amended.  Whenever the cosine factor is nonzero, each of the
four child centers lies at squared distance `2 × offsetMeters²` from
the parent center (distance `√2 × OVERLAP_FACTOR × childRadius`, not
`offsetMeters`); with `OVERLAP_FACTOR = 0.7` this is
`0.98 × childRadius² ≤ childRadius²`, so the parent center lies within
every child disc — the sufficient condition is
`√2 × OVERLAP_FACTOR ≤ 1`, not `OVERLAP_FACTOR ≤ 1`. -/
theorem c4_child_distance (cosd : ℚ → ℚ) (t : Tile) (hc : cosd t.lat ≠ 0) :
    ∀ child ∈ children cosd t,
      distSqMeters (cosd t.lat) t.lat t.lng child.lat child.lng
          = 2 * ((7 / 10) * (t.radius / 2)) ^ 2
      ∧ distSqMeters (cosd t.lat) t.lat t.lng child.lat child.lng
          ≤ (t.radius / 2) ^ 2 := by
  intro child hchild
  have h := distSq_children cosd t hc child hchild
  refine ⟨h, ?_⟩
  rw [h]
  nlinarith [sq_nonneg t.radius]

/-- Concrete instantiation of `c4_child_distance`: parent at the
origin, radius 1000, cosine factor 1, first child. -/
theorem c4_child_distance_witness :
    distSqMeters 1 0 0 (0 + 1000 / 2 * (7 / 10) / 111320)
        (0 - 1000 / 2 * (7 / 10) / 111320 / 1)
        = 2 * ((7 / 10) * ((1000 : ℚ) / 2)) ^ 2
    ∧ distSqMeters 1 0 0 (0 + 1000 / 2 * (7 / 10) / 111320)
        (0 - 1000 / 2 * (7 / 10) / 111320 / 1) ≤ (((1000 : ℚ)) / 2) ^ 2 :=
  c4_child_distance (fun _ => 1) { lat := 0, lng := 0, radius := 1000, depth := 0 }
    (by norm_num) _ (List.mem_cons_self _ _)

/-! ## The traversal loop: budget and termination (claims C2 and C5) -/

/-- Unfolding one iteration of the loop. -/
theorem runAux_succ (cosd : ℚ → ℚ) (provider : Provider) (fuel : ℕ) (s : SearchState) :
    runAux cosd provider (fuel + 1) s =
      if 0 < s.queue.length ∧ s.apiCalls < 200 then
        runAux cosd provider fuel (stepTile cosd provider s)
      else s :=
  rfl

/-- Once the loop guard is false the state is a fixed point of the loop. -/
theorem runAux_exit (cosd : ℚ → ℚ) (provider : Provider) (s : SearchState)
    (h : ¬(0 < s.queue.length ∧ s.apiCalls < 200)) :
    ∀ fuel, runAux cosd provider fuel s = s := by
  intro fuel
  cases fuel with
  | zero => rfl
  | succ fuel => rw [runAux_succ, if_neg h]

/-- Every iteration increments the call counter by exactly one. -/
theorem stepTile_apiCalls (cosd : ℚ → ℚ) (provider : Provider) (s : SearchState)
    (h : s.queue ≠ []) :
    (stepTile cosd provider s).apiCalls = s.apiCalls + 1 := by
  match hq : s.queue with
  | [] => exact absurd hq h
  | tile :: rest =>
    simp only [stepTile, hq]
    cases provider s.apiCalls tile <;> rfl

/-- The counter never exceeds 200 if it starts no higher. -/
theorem runAux_apiCalls_le (cosd : ℚ → ℚ) (provider : Provider) :
    ∀ (fuel : ℕ) (s : SearchState), s.apiCalls ≤ 200 →
      (runAux cosd provider fuel s).apiCalls ≤ 200 := by
  intro fuel
  induction fuel with
  | zero => intro s hs; exact hs
  | succ fuel ih =>
    intro s hs
    rw [runAux_succ]
    by_cases hg : 0 < s.queue.length ∧ s.apiCalls < 200
    · rw [if_pos hg]
      apply ih
      have hne : s.queue ≠ [] := by
        intro hnil
        rw [hnil] at hg
        exact absurd hg.1 (by simp)
      rw [stepTile_apiCalls cosd provider s hne]
      omega
    · rw [if_neg hg]; exact hs

/-- With fuel at least `200 − apiCalls` the loop reaches a state where
its guard is false. -/
theorem runAux_guard_false (cosd : ℚ → ℚ) (provider : Provider) :
    ∀ (fuel : ℕ) (s : SearchState), 200 - s.apiCalls ≤ fuel →
      ¬(0 < (runAux cosd provider fuel s).queue.length ∧
        (runAux cosd provider fuel s).apiCalls < 200) := by
  intro fuel
  induction fuel with
  | zero =>
    intro s hs
    have h0 : runAux cosd provider 0 s = s := rfl
    rw [h0]
    intro hg
    exact absurd hg.2 (by omega)
  | succ fuel ih =>
    intro s hs
    rw [runAux_succ]
    by_cases hg : 0 < s.queue.length ∧ s.apiCalls < 200
    · rw [if_pos hg]
      apply ih
      have hne : s.queue ≠ [] := by
        intro hnil
        rw [hnil] at hg
        exact absurd hg.1 (by simp)
      rw [stepTile_apiCalls cosd provider s hne]
      omega
    · rw [if_neg hg]; exact hg

/-- Fuel beyond `200 − apiCalls` changes nothing. -/
theorem runAux_add (cosd : ℚ → ℚ) (provider : Provider) :
    ∀ (fuel k : ℕ) (s : SearchState), 200 - s.apiCalls ≤ fuel →
      runAux cosd provider (fuel + k) s = runAux cosd provider fuel s := by
  intro fuel
  induction fuel with
  | zero =>
    intro k s hs
    have h0 : ¬(0 < s.queue.length ∧ s.apiCalls < 200) := by
      intro hg; exact absurd hg.2 (by omega)
    rw [Nat.zero_add, runAux_exit cosd provider s h0 k]
    rfl
  | succ fuel ih =>
    intro k s hs
    by_cases hg : 0 < s.queue.length ∧ s.apiCalls < 200
    · have hne : s.queue ≠ [] := by
        intro hnil
        rw [hnil] at hg
        exact absurd hg.1 (by simp)
      have hstep : 200 - (stepTile cosd provider s).apiCalls ≤ fuel := by
        rw [stepTile_apiCalls cosd provider s hne]; omega
      have : fuel + 1 + k = (fuel + k) + 1 := by omega
      rw [this, runAux_succ, if_pos hg, runAux_succ, if_pos hg, ih k _ hstep]
    · rw [runAux_exit cosd provider s hg, runAux_exit cosd provider s hg]

/-- C2.  The budget invariant of one traversal: the number of provider
calls (the `apiCalls` counter, incremented once before each query)
never exceeds `MAX_API_CALLS = 200`; and whenever the work queue is
still non-empty after the loop stops — as with an inexhaustible stub
provider — the final count is exactly 200. -/
theorem c2_budget_exactness (cosd : ℚ → ℚ) (provider : Provider)
    (lat lng radiusMeters : ℚ) :
    (adaptiveTilingSearch cosd provider lat lng radiusMeters).metrics.apiCalls ≤ 200
    ∧ ((runAux cosd provider 200 (initState lat lng radiusMeters)).queue ≠ [] →
        (adaptiveTilingSearch cosd provider lat lng radiusMeters).metrics.apiCalls = 200) := by
  constructor
  · exact runAux_apiCalls_le cosd provider 200 (initState lat lng radiusMeters) (by simp [initState])
  · intro hne
    have hg := runAux_guard_false cosd provider 200 (initState lat lng radiusMeters)
      (by simp [initState])
    have hle := runAux_apiCalls_le cosd provider 200 (initState lat lng radiusMeters)
      (by simp [initState])
    have hpos : 0 < (runAux cosd provider 200 (initState lat lng radiusMeters)).queue.length := by
      cases hq : (runAux cosd provider 200 (initState lat lng radiusMeters)).queue with
      | nil => exact absurd hq hne
      | cons a l => simp [hq]
    simp only [adaptiveTilingSearch]
    omega

/-- C5.  One traversal always terminates: 200 loop iterations already
reach the loop's fixed point (more fuel changes nothing), and the state
reached has either an exhausted queue or an exhausted budget. -/
theorem c5_termination (cosd : ℚ → ℚ) (provider : Provider) (lat lng radiusMeters : ℚ) :
    (∀ fuel, 200 ≤ fuel →
        runAux cosd provider fuel (initState lat lng radiusMeters)
          = runAux cosd provider 200 (initState lat lng radiusMeters))
    ∧ ((runAux cosd provider 200 (initState lat lng radiusMeters)).queue = []
        ∨ (runAux cosd provider 200 (initState lat lng radiusMeters)).apiCalls = 200) := by
  constructor
  · intro fuel hfuel
    have h := runAux_add cosd provider 200 (fuel - 200) (initState lat lng radiusMeters)
      (by simp [initState])
    have : 200 + (fuel - 200) = fuel := by omega
    rw [this] at h
    exact h
  · have hg := runAux_guard_false cosd provider 200 (initState lat lng radiusMeters)
      (by simp [initState])
    have hle := runAux_apiCalls_le cosd provider 200 (initState lat lng radiusMeters)
      (by simp [initState])
    cases hq : (runAux cosd provider 200 (initState lat lng radiusMeters)).queue with
    | nil => exact Or.inl rfl
    | cons a l =>
      right
      rw [hq] at hg
      simp only [List.length_cons] at hg
      omega

/-- Concrete instantiation of `c5_termination`: an always-failing
provider, fuel 201. -/
theorem c5_termination_witness :
    runAux (fun _ => 1) alwaysFail 201 (initState 0 0 0)
      = runAux (fun _ => 1) alwaysFail 200 (initState 0 0 0) :=
  (c5_termination (fun _ => 1) alwaysFail 0 0 0).1 201 (by omega)

/-- Characterization of one iteration on a failing query. -/
theorem stepTile_eq_none (cosd : ℚ → ℚ) (provider : Provider) (s : SearchState)
    (tile : Tile) (rest : List Tile)
    (hq : s.queue = tile :: rest) (hp : provider s.apiCalls tile = none) :
    stepTile cosd provider s =
      { queue := rest, seen := s.seen, apiCalls := s.apiCalls + 1 } := by
  obtain ⟨q, seen, api⟩ := s
  simp only at hq hp
  subst hq
  simp only [stepTile, hp]

/-- Characterization of one iteration on a successful query. -/
theorem stepTile_eq_some (cosd : ℚ → ℚ) (provider : Provider) (s : SearchState)
    (tile : Tile) (rest : List Tile) (places : List Place)
    (hq : s.queue = tile :: rest) (hp : provider s.apiCalls tile = some places) :
    stepTile cosd provider s =
      { queue :=
          if places.length ≥ 20 ∧ tile.radius > 500 ∧ tile.depth < 5 then
            rest ++ children cosd tile
          else rest
        seen := insertPlaces s.seen places
        apiCalls := s.apiCalls + 1 } := by
  obtain ⟨q, seen, api⟩ := s
  simp only at hq hp
  subst hq
  simp only [stepTile, hp]

/-- The children of a tile halve the radius and deepen by one. -/
theorem children_radius_depth (cosd : ℚ → ℚ) (t : Tile) :
    ∀ u ∈ children cosd t, u.depth = t.depth + 1 ∧ u.radius = t.radius / 2 := by
  intro u h
  simp only [children, childrenWithFactor, List.mem_cons, List.not_mem_nil,
    or_false] at h
  rcases h with h | h | h | h <;> subst h <;> exact ⟨rfl, rfl⟩

/-- Against the inexhaustible stub, a step from a queue of good tiles
yields a queue of good tiles and lowers the potential by exactly one. -/
theorem step_alwaysFull (cosd : ℚ → ℚ) (s : SearchState) (t : Tile) (rest : List Tile)
    (hq : s.queue = t :: rest) (hgood : ∀ u ∈ s.queue, goodTile u) :
    (∀ u ∈ (stepTile cosd alwaysFull s).queue, goodTile u)
    ∧ phi (stepTile cosd alwaysFull s) + 1 = phi s := by
  have hgt : goodTile t := hgood t (by rw [hq]; exact List.mem_cons_self _ _)
  have hgrest : ∀ u ∈ rest, goodTile u := fun u hu =>
    hgood u (by rw [hq]; exact List.mem_cons_of_mem _ hu)
  have hlen : fullResponse.length = 20 := by simp [fullResponse]
  have hsome : alwaysFull s.apiCalls t = some fullResponse := rfl
  have hstep := stepTile_eq_some cosd alwaysFull s t rest fullResponse hq hsome
  by_cases hd : t.depth < 5
  · have hrad : t.radius > 500 := by
      have h1 : (1 : ℚ) ≤ 2 ^ (4 - t.depth) := one_le_pow₀ (by norm_num)
      have h2 := hgt.2 hd
      nlinarith
    have hcond : fullResponse.length ≥ 20 ∧ t.radius > 500 ∧ t.depth < 5 :=
      ⟨by omega, hrad, hd⟩
    rw [if_pos hcond] at hstep
    constructor
    · intro u hu
      rw [hstep] at hu
      simp only at hu
      rcases List.mem_append.mp hu with h | h
      · exact hgrest u h
      · obtain ⟨hdep1, hdep2⟩ := children_radius_depth cosd t u h
        constructor
        · omega
        · intro hu5
          rw [hdep1] at hu5 ⊢
          rw [hdep2]
          have hsub : 4 - t.depth = (4 - (t.depth + 1)) + 1 := by omega
          have h2 := hgt.2 hd
          rw [hsub, pow_succ] at h2
          linarith
    · rw [hstep]
      simp only [phi, hq, List.map_append, List.sum_append, List.map_cons, List.sum_cons]
      have hchild : ((children cosd t).map fun u => treeN (5 - u.depth)).sum
          = 4 * treeN (4 - t.depth) := by
        have hs5 : 5 - (t.depth + 1) = 4 - t.depth := by omega
        simp only [children, childrenWithFactor, List.map_cons, List.map_nil,
          List.sum_cons, List.sum_nil]
        rw [hs5]
        ring
      rw [hchild]
      have hsub : 5 - t.depth = (4 - t.depth) + 1 := by omega
      rw [hsub, treeN]
      ring
  · have hle5 : t.depth ≤ 5 := hgt.1
    have hd5 : t.depth = 5 := by omega
    have hcond : ¬(fullResponse.length ≥ 20 ∧ t.radius > 500 ∧ t.depth < 5) := by
      intro h; exact absurd h.2.2 hd
    rw [if_neg hcond] at hstep
    constructor
    · intro u hu
      rw [hstep] at hu
      simp only at hu
      exact hgrest u hu
    · rw [hstep]
      simp only [phi, hq, List.map_cons, List.sum_cons, hd5]
      rw [show 5 - 5 = 0 from rfl, treeN]
      ring

/-- Against the inexhaustible stub the potential falls by at most one
per unit of fuel. -/
theorem runAux_phi_alwaysFull (cosd : ℚ → ℚ) :
    ∀ (fuel : ℕ) (s : SearchState), (∀ u ∈ s.queue, goodTile u) →
      phi s ≤ phi (runAux cosd alwaysFull fuel s) + fuel := by
  intro fuel
  induction fuel with
  | zero =>
    intro s hgood
    have h0 : runAux cosd alwaysFull 0 s = s := rfl
    rw [h0]
    omega
  | succ fuel ih =>
    intro s hgood
    rw [runAux_succ]
    by_cases hg : 0 < s.queue.length ∧ s.apiCalls < 200
    · rw [if_pos hg]
      match hq : s.queue with
      | [] => rw [hq] at hg; exact absurd hg.1 (by simp)
      | t :: rest =>
        have hstep := step_alwaysFull cosd s t rest hq hgood
        have hrec := ih (stepTile cosd alwaysFull s) hstep.1
        omega
    · rw [if_neg hg]
      omega

/-- Against the inexhaustible stub started from a 15000 m disc the
work queue is still non-empty when the budget runs out. -/
theorem alwaysFull_queue_ne_nil (cosd : ℚ → ℚ) (lat lng : ℚ) :
    (runAux cosd alwaysFull 200 (initState lat lng 15000)).queue ≠ [] := by
  have hgood : ∀ u ∈ (initState lat lng 15000).queue, goodTile u := by
    intro u hu
    simp only [initState, List.mem_singleton] at hu
    subst hu
    refine ⟨by norm_num, fun _ => ?_⟩
    norm_num
  have hphi := runAux_phi_alwaysFull cosd 200 (initState lat lng 15000) hgood
  have hinit : phi (initState lat lng 15000) = 1365 := by
    simp [phi, initState, treeN]
  intro hnil
  rw [hinit] at hphi
  have hzero : phi (runAux cosd alwaysFull 200 (initState lat lng 15000)) = 0 := by
    simp [phi, hnil]
  omega

/-- Concrete instantiation of `c2_budget_exactness`: the inexhaustible
stub exhausts the whole budget of 200 calls. -/
theorem c2_budget_exactness_witness :
    (runAux (fun _ => 1) alwaysFull 200 (initState 32 34 15000)).queue ≠ []
    ∧ (adaptiveTilingSearch (fun _ => 1) alwaysFull 32 34 15000).metrics.apiCalls = 200 :=
  ⟨alwaysFull_queue_ne_nil (fun _ => 1) 32 34,
   (c2_budget_exactness (fun _ => 1) alwaysFull 32 34 15000).2
     (alwaysFull_queue_ne_nil (fun _ => 1) 32 34)⟩

/-! ## Subdivision rule and failure handling (claims C3 and C7) -/

/-- C3.  A dequeued, successfully queried tile — under the provider
contract that a response holds at most the advertised capacity of 20
results — has its four children created and appended to the queue iff
the response is capacity-sized (exactly 20, the truncation signal), the
radius exceeds `MIN_TILE_RADIUS = 500` and the depth is below
`MAX_DEPTH = 5`; in every other case the queue is just the remaining
tail, so a below-capacity count, a depth at the ceiling or a radius at
or under the floor never subdivides. -/
theorem c3_subdivision_iff (cosd : ℚ → ℚ) (provider : Provider) (s : SearchState)
    (tile : Tile) (rest : List Tile) (places : List Place)
    (hq : s.queue = tile :: rest)
    (hp : provider s.apiCalls tile = some places)
    (hcap : places.length ≤ 20) :
    ((stepTile cosd provider s).queue = rest ++ children cosd tile
      ↔ (places.length = 20 ∧ tile.radius > 500 ∧ tile.depth < 5))
    ∧ (¬(places.length = 20 ∧ tile.radius > 500 ∧ tile.depth < 5) →
        (stepTile cosd provider s).queue = rest) := by
  have hstep := stepTile_eq_some cosd provider s tile rest places hq hp
  have hiff : (places.length ≥ 20 ∧ tile.radius > 500 ∧ tile.depth < 5)
      ↔ (places.length = 20 ∧ tile.radius > 500 ∧ tile.depth < 5) := by
    constructor <;> rintro ⟨h1, h2, h3⟩ <;> exact ⟨by omega, h2, h3⟩
  by_cases hcond : places.length = 20 ∧ tile.radius > 500 ∧ tile.depth < 5
  · constructor
    · apply iff_of_true _ hcond
      rw [hstep]
      simp only [if_pos (hiff.mpr hcond)]
    · intro h; exact absurd hcond h
  · have hqueue : (stepTile cosd provider s).queue = rest := by
      rw [hstep]
      simp only [if_neg (fun h => hcond (hiff.mp h))]
    constructor
    · apply iff_of_false _ hcond
      rw [hqueue]
      intro habs
      have hlen := congrArg List.length habs
      have hch : (children cosd tile).length = 4 := rfl
      rw [List.length_append, hch] at hlen
      omega
    · intro _; exact hqueue

/-- Concrete instantiation of `c3_subdivision_iff`: an empty (clearly
below-capacity) response on the initial 1000 m tile. -/
theorem c3_subdivision_iff_witness :
    ((stepTile (fun _ => 1) (fun _ _ => some []) (initState 0 0 1000)).queue
      = [] ++ children (fun _ => 1) { lat := 0, lng := 0, radius := 1000, depth := 0 }
      ↔ (List.length ([] : List Place) = 20 ∧ (1000 : ℚ) > 500 ∧ (0 : ℕ) < 5))
    ∧ (¬(List.length ([] : List Place) = 20 ∧ (1000 : ℚ) > 500 ∧ (0 : ℕ) < 5) →
        (stepTile (fun _ => 1) (fun _ _ => some []) (initState 0 0 1000)).queue = []) :=
  c3_subdivision_iff (fun _ => 1) (fun _ _ => some []) (initState 0 0 1000)
    { lat := 0, lng := 0, radius := 1000, depth := 0 } [] [] rfl rfl (by decide)

/-- C7.  A tile whose query fails is treated as zero-result: the
iteration only drops the tile and counts the call — the registry is
unchanged (no entities), no children are enqueued (no subdivision), the
tile is not re-queued (no retry) — and while the loop guard holds, the
traversal continues on the remaining queue instead of aborting. -/
theorem c7_failure_zero_result (cosd : ℚ → ℚ) (provider : Provider) (s : SearchState)
    (tile : Tile) (rest : List Tile)
    (hq : s.queue = tile :: rest) (hp : provider s.apiCalls tile = none) :
    stepTile cosd provider s = { queue := rest, seen := s.seen, apiCalls := s.apiCalls + 1 }
    ∧ ∀ fuel, 0 < s.queue.length ∧ s.apiCalls < 200 →
        runAux cosd provider (fuel + 1) s
          = runAux cosd provider fuel
              { queue := rest, seen := s.seen, apiCalls := s.apiCalls + 1 } := by
  have h := stepTile_eq_none cosd provider s tile rest hq hp
  exact ⟨h, fun fuel hg => by rw [runAux_succ, if_pos hg, h]⟩

/-- Concrete instantiation of `c7_failure_zero_result`: a failing query
on the initial tile. -/
theorem c7_failure_zero_result_witness :
    stepTile (fun _ => 1) alwaysFail (initState 0 0 1000)
        = { queue := [], seen := [], apiCalls := 0 + 1 }
    ∧ runAux (fun _ => 1) alwaysFail (3 + 1) (initState 0 0 1000)
        = runAux (fun _ => 1) alwaysFail 3 { queue := [], seen := [], apiCalls := 0 + 1 } :=
  have h := c7_failure_zero_result (fun _ => 1) alwaysFail (initState 0 0 1000)
    { lat := 0, lng := 0, radius := 1000, depth := 0 } [] rfl rfl
  ⟨h.1, h.2 3 (by decide)⟩

/-! ## First-write-wins deduplication (claim C6) -/

/-- The stored record keeps the identity of the raw place. -/
theorem toRecord_id (p : Place) : (toRecord p).id = p.id := rfl

/-- Records already in the registry survive an insertion. -/
theorem insertPlace_mem (seen : List PlaceRecord) (p : Place) :
    ∀ r ∈ seen, r ∈ insertPlace seen p := by
  intro r hr
  unfold insertPlace
  split
  · exact hr
  · exact List.mem_append_left _ hr

/-- Records already in the registry survive a whole response merge. -/
theorem insertPlaces_mem (places : List Place) :
    ∀ (seen : List PlaceRecord) (r : PlaceRecord), r ∈ seen →
      r ∈ insertPlaces seen places := by
  induction places with
  | nil => intro seen r hr; exact hr
  | cons p ps ih =>
    intro seen r hr
    exact ih (insertPlace seen p) r (insertPlace_mem seen p r hr)

/-- Records in the registry survive one loop iteration. -/
theorem stepTile_seen_mem (cosd : ℚ → ℚ) (provider : Provider) (s : SearchState)
    (r : PlaceRecord) (hr : r ∈ s.seen) : r ∈ (stepTile cosd provider s).seen := by
  cases hq : s.queue with
  | nil =>
    have h : stepTile cosd provider s = s := by
      obtain ⟨q, seen, api⟩ := s
      simp only at hq
      subst hq
      rfl
    rw [h]; exact hr
  | cons tile rest =>
    cases hp : provider s.apiCalls tile with
    | none => rw [stepTile_eq_none cosd provider s tile rest hq hp]; exact hr
    | some places =>
      rw [stepTile_eq_some cosd provider s tile rest places hq hp]
      exact insertPlaces_mem places s.seen r hr

/-- C6 persistence half: a record inserted at any point of a traversal
is still in the registry when the traversal stops. -/
theorem runAux_seen_mem (cosd : ℚ → ℚ) (provider : Provider) :
    ∀ (fuel : ℕ) (s : SearchState) (r : PlaceRecord), r ∈ s.seen →
      r ∈ (runAux cosd provider fuel s).seen := by
  intro fuel
  induction fuel with
  | zero => intro s r hr; exact hr
  | succ fuel ih =>
    intro s r hr
    rw [runAux_succ]
    by_cases hg : 0 < s.queue.length ∧ s.apiCalls < 200
    · rw [if_pos hg]
      exact ih _ r (stepTile_seen_mem cosd provider s r hr)
    · rw [if_neg hg]; exact hr

/-- Identities in the registry are pairwise distinct, preserved by one
insertion. -/
theorem insertPlace_pairwise (seen : List PlaceRecord) (p : Place)
    (h : seen.Pairwise fun a b => a.id ≠ b.id) :
    (insertPlace seen p).Pairwise fun a b => a.id ≠ b.id := by
  unfold insertPlace
  split
  · exact h
  · rename_i hany
    rw [List.pairwise_append]
    refine ⟨h, List.pairwise_singleton _ _, ?_⟩
    intro a ha b hb
    rw [List.mem_singleton] at hb
    subst hb
    rw [toRecord_id]
    intro heq
    exact hany (List.any_eq_true.mpr ⟨a, ha, by simp [heq]⟩)

/-- Pairwise-distinct identities survive a whole response merge. -/
theorem insertPlaces_pairwise (places : List Place) :
    ∀ seen : List PlaceRecord, (seen.Pairwise fun a b => a.id ≠ b.id) →
      (insertPlaces seen places).Pairwise fun a b => a.id ≠ b.id := by
  induction places with
  | nil => intro seen h; exact h
  | cons p ps ih => intro seen h; exact ih _ (insertPlace_pairwise seen p h)

/-- Pairwise-distinct identities survive one loop iteration. -/
theorem stepTile_pairwise (cosd : ℚ → ℚ) (provider : Provider) (s : SearchState)
    (h : s.seen.Pairwise fun a b => a.id ≠ b.id) :
    (stepTile cosd provider s).seen.Pairwise fun a b => a.id ≠ b.id := by
  cases hq : s.queue with
  | nil =>
    have he : stepTile cosd provider s = s := by
      obtain ⟨q, seen, api⟩ := s
      simp only at hq
      subst hq
      rfl
    rw [he]; exact h
  | cons tile rest =>
    cases hp : provider s.apiCalls tile with
    | none => rw [stepTile_eq_none cosd provider s tile rest hq hp]; exact h
    | some places =>
      rw [stepTile_eq_some cosd provider s tile rest places hq hp]
      exact insertPlaces_pairwise places s.seen h

/-- Pairwise-distinct identities survive the whole traversal. -/
theorem runAux_pairwise (cosd : ℚ → ℚ) (provider : Provider) :
    ∀ (fuel : ℕ) (s : SearchState), (s.seen.Pairwise fun a b => a.id ≠ b.id) →
      (runAux cosd provider fuel s).seen.Pairwise fun a b => a.id ≠ b.id := by
  intro fuel
  induction fuel with
  | zero => intro s h; exact h
  | succ fuel ih =>
    intro s h
    rw [runAux_succ]
    by_cases hg : 0 < s.queue.length ∧ s.apiCalls < 200
    · rw [if_pos hg]
      exact ih _ (stepTile_pairwise cosd provider s h)
    · rw [if_neg hg]; exact h

/-- A list with pairwise-distinct identities holds at most one record
per identity. -/
theorem pairwise_filter_id_le_one (l : List PlaceRecord)
    (h : l.Pairwise fun a b => a.id ≠ b.id) (id : String) :
    (l.filter fun r => r.id = id).length ≤ 1 := by
  induction l with
  | nil => simp
  | cons a l ih =>
    rw [List.pairwise_cons] at h
    by_cases ha : a.id = id
    · have hnil : (l.filter fun r => r.id = id) = [] := by
        rw [List.filter_eq_nil_iff]
        intro b hb
        simp only [decide_eq_true_eq]
        intro hbid
        exact absurd (ha.trans hbid.symm) (h.1 b hb)
      simp [List.filter_cons, ha, hnil]
    · have := ih h.2
      simp [List.filter_cons, ha]
      omega

/-- C6.  Within one traversal the registry is first-write-wins: every
identity has exactly one record in the final registry whenever some
record carries it; a record, once inserted, persists verbatim to the
end of the traversal (so a duplicate entity keeps the attributes from
the tile processed first); and inserting a place whose identity is
already present leaves the registry unchanged (the later sighting is
discarded, never merged). -/
theorem c6_first_write_wins (cosd : ℚ → ℚ) (provider : Provider)
    (lat lng radiusMeters : ℚ) :
    (∀ id : String,
        (∃ r ∈ (adaptiveTilingSearch cosd provider lat lng radiusMeters).places, r.id = id) →
        ((adaptiveTilingSearch cosd provider lat lng radiusMeters).places.filter
            fun r => r.id = id).length = 1)
    ∧ (∀ (fuel : ℕ) (s : SearchState) (r : PlaceRecord), r ∈ s.seen →
        r ∈ (runAux cosd provider fuel s).seen)
    ∧ (∀ (seen : List PlaceRecord) (p : Place), (∃ r ∈ seen, r.id = p.id) →
        insertPlace seen p = seen) := by
  refine ⟨?_, runAux_seen_mem cosd provider, ?_⟩
  · intro id ⟨r, hr, hid⟩
    have hpw : (adaptiveTilingSearch cosd provider lat lng radiusMeters).places.Pairwise
        fun a b => a.id ≠ b.id := by
      simp only [adaptiveTilingSearch]
      exact runAux_pairwise cosd provider 200 _ (by simp [initState])
    have hle := pairwise_filter_id_le_one _ hpw id
    have hmem : r ∈ (adaptiveTilingSearch cosd provider lat lng radiusMeters).places.filter
        fun r => r.id = id := List.mem_filter.mpr ⟨hr, by simp [hid]⟩
    have hpos := List.length_pos.mpr (List.ne_nil_of_mem hmem)
    omega
  · intro seen p ⟨r, hr, hid⟩
    unfold insertPlace
    rw [if_pos (List.any_eq_true.mpr ⟨r, hr, by simp [hid]⟩)]

/-- Evaluation of the one-place scenario: a single below-capacity
response, the loop stops with one registered record after one call. -/
theorem oneShot_run :
    runAux (fun _ => 1) oneShot 200 (initState 0 0 0)
      = { queue := [], seen := [toRecord (samplePlace "a" 5 1)], apiCalls := 1 } := by
  rw [show (200 : ℕ) = 199 + 1 from rfl, runAux_succ, if_pos (by decide)]
  rw [stepTile_eq_some (fun _ => 1) oneShot (initState 0 0 0)
    { lat := 0, lng := 0, radius := 0, depth := 0 } [] [samplePlace "a" 5 1] rfl rfl]
  rw [if_neg (by simp)]
  rw [runAux_exit (fun _ => 1) oneShot _ (by simp) 199]
  simp [insertPlaces, insertPlace, initState]

/-- Concrete instantiation of `c6_first_write_wins`: the one-place
scenario ends with exactly one record carrying identity `a`. -/
theorem c6_first_write_wins_witness :
    ((adaptiveTilingSearch (fun _ => 1) oneShot 0 0 0).places.filter
        fun r => r.id = "a").length = 1 := by
  apply (c6_first_write_wins (fun _ => 1) oneShot 0 0 0).1 "a"
  exact ⟨toRecord (samplePlace "a" 5 1), by simp [adaptiveTilingSearch, oneShot_run], rfl⟩

/-! ## The HTTP handler: input validation and metrics (claims C8 and C10) -/

/-- Any traversal against the always-failing provider: one call, empty
queue, empty registry. -/
theorem alwaysFail_run (cosd : ℚ → ℚ) (lat lng r : ℚ) :
    runAux cosd alwaysFail 200 (initState lat lng r)
      = { queue := [], seen := [], apiCalls := 1 } := by
  rw [show (200 : ℕ) = 199 + 1 from rfl, runAux_succ, if_pos (by simp [initState])]
  rw [stepTile_eq_none cosd alwaysFail _ { lat := lat, lng := lng, radius := r, depth := 0 }
    [] rfl rfl]
  rw [runAux_exit cosd alwaysFail _ (by simp) 199]
  rfl

/-- The corresponding whole-traversal outcome. -/
theorem alwaysFail_search (cosd : ℚ → ℚ) (lat lng r : ℚ) :
    adaptiveTilingSearch cosd alwaysFail lat lng r
      = { places := [], metrics := { apiCalls := 1, uniquePlaces := 0 } } := by
  simp [adaptiveTilingSearch, alwaysFail_run]

/-- C8, counterexample.  A request with well-formed coordinates and the
negative radius −5 km is not rejected: the handler answers success and
its reported budget is 2 provider calls (one per category group), not
0 — the source never validates the radius sign. -/
theorem c8_counterexample :
    adaptiveHandler (fun _ => 1) (fun _ _ _ _ => 0) (fun _ => alwaysFail) qNegRadius
      ≠ HandlerOutcome.invalidCoordinates
    ∧ handlerApiCalls
        (adaptiveHandler (fun _ => 1) (fun _ _ _ _ => 0) (fun _ => alwaysFail) qNegRadius)
      = 2 := by
  constructor
  · simp [adaptiveHandler, qNegRadius]
  · simp [adaptiveHandler, qNegRadius, handlerApiCalls, totalApiCalls, groupOutcomes,
      typeGroups, alwaysFail_search]

/-- C8 as amended.  Only malformed coordinates are rejected before any
tile is scheduled: when the latitude or the longitude is `NaN` the
handler answers `INVALID_COORDINATES`, and the answer is independent of
the provider — no provider call is issued, no budget consumed.  A
non-positive radius, by contrast, is not validated (see the
counterexample). -/
theorem c8_invalid_coordinates_rejected (cosd : ℚ → ℚ) (dist : ℚ → ℚ → ℚ → ℚ → ℚ)
    (provider provider' : GroupProvider) (q : AdaptiveQuery)
    (h : q.latitude = none ∨ q.longitude = none) :
    adaptiveHandler cosd dist provider q = HandlerOutcome.invalidCoordinates
    ∧ adaptiveHandler cosd dist provider q = adaptiveHandler cosd dist provider' q := by
  obtain ⟨qlat, qlng, qr, qt, qmr, qmv⟩ := q
  simp only at h
  rcases h with h | h
  · subst h; cases qlng <;> exact ⟨rfl, rfl⟩
  · subst h; cases qlat <;> exact ⟨rfl, rfl⟩

/-- Concrete instantiation of `c8_invalid_coordinates_rejected`: a
request with a missing latitude, two different providers. -/
theorem c8_invalid_coordinates_rejected_witness :
    adaptiveHandler (fun _ => 1) (fun _ _ _ _ => 0) (fun _ => alwaysFail) qNoLat
        = HandlerOutcome.invalidCoordinates
    ∧ adaptiveHandler (fun _ => 1) (fun _ _ _ _ => 0) (fun _ => alwaysFail) qNoLat
        = adaptiveHandler (fun _ => 1) (fun _ _ _ _ => 0) (fun _ => oneShot) qNoLat :=
  c8_invalid_coordinates_rejected (fun _ => 1) (fun _ _ _ _ => 0)
    (fun _ => alwaysFail) (fun _ => oneShot) qNoLat (Or.inl rfl)

/-- Folding the per-group additions is summing the mapped counts. -/
theorem foldl_add_counts (f : SearchOutcome → ℕ) :
    ∀ (l : List SearchOutcome) (a : ℕ),
      l.foldl (fun acc r => acc + f r) a = a + (l.map f).sum := by
  intro l
  induction l with
  | nil => intro a; simp
  | cons x xs ih =>
    intro a
    simp only [List.foldl_cons, List.map_cons, List.sum_cons, ih]
    omega

/-- C10.  The metrics object of every successful handler answer
reports `uniquePlaces = 0` — the per-group `uniquePlaces` counts are
never accumulated — while `apiCalls` is the sum of the per-group
traversal counts. -/
theorem c10_uniquePlaces_always_zero (cosd : ℚ → ℚ) (dist : ℚ → ℚ → ℚ → ℚ → ℚ)
    (provider : GroupProvider) (q : AdaptiveQuery) (lat lng : ℚ) (body : ResponseBody)
    (hlat : q.latitude = some lat) (hlng : q.longitude = some lng)
    (hok : adaptiveHandler cosd dist provider q = HandlerOutcome.ok body) :
    body.metrics.uniquePlaces = 0
    ∧ body.metrics.apiCalls =
        ((groupOutcomes cosd provider lat lng ((q.radius.getD 15) * 1000)
            (q.type.getD "both")).map fun r => r.metrics.apiCalls).sum := by
  obtain ⟨qlat, qlng, qr, qt, qmr, qmv⟩ := q
  simp only at hlat hlng ⊢
  subst hlat hlng
  simp only [adaptiveHandler, HandlerOutcome.ok.injEq] at hok
  subst hok
  refine ⟨rfl, ?_⟩
  simp only [totalApiCalls]
  rw [foldl_add_counts]
  omega

/-- Concrete instantiation of `c10_uniquePlaces_always_zero`: the
restaurant request against the always-failing provider. -/
theorem c10_uniquePlaces_always_zero_witness :
    ({ apiCalls := 1, uniquePlaces := 0 } : Metrics).uniquePlaces = 0
    ∧ ({ apiCalls := 1, uniquePlaces := 0 } : Metrics).apiCalls =
        ((groupOutcomes (fun _ => 1) (fun _ => alwaysFail) 0 0 (15 * 1000)
            "restaurant").map fun r => r.metrics.apiCalls).sum := by
  have hok : adaptiveHandler (fun _ => 1) (fun _ _ _ _ => 0) (fun _ => alwaysFail) qSimple
      = HandlerOutcome.ok
          { location := { latitude := 0, longitude := 0 }
            totalFound := 0
            afterFilters := 0
            places := []
            metrics := { apiCalls := 1, uniquePlaces := 0 } } := by
    simp [adaptiveHandler, qSimple, totalApiCalls, groupOutcomes, typeGroups,
      alwaysFail_search, allPlacesOf, dedupById, formattedOf]
  have h := c10_uniquePlaces_always_zero (fun _ => 1) (fun _ _ _ _ => 0)
    (fun _ => alwaysFail) qSimple 0 0 _ rfl rfl hok
  exact h

/-! ## The final sort (claim C9) -/

/-- The JavaScript comparator is transitive. -/
theorem jsCompareLe_trans : ∀ a b c : FormattedPlace,
    jsCompareLe a b → jsCompareLe b c → jsCompareLe a c := by
  intro a b c hab hbc
  simp only [jsCompareLe, decide_eq_true_eq] at *
  rcases hab with h1 | ⟨e1, h1⟩ <;> rcases hbc with h2 | ⟨e2, h2⟩
  · left; linarith
  · left; rwa [← e2]
  · left; rwa [e1]
  · right; exact ⟨e1.trans e2, le_trans h2 h1⟩

/-- The JavaScript comparator is total. -/
theorem jsCompareLe_total : ∀ a b : FormattedPlace,
    jsCompareLe a b || jsCompareLe b a := by
  intro a b
  simp only [jsCompareLe, Bool.or_eq_true, decide_eq_true_eq]
  rcases lt_trichotomy a.rating b.rating with h | h | h
  · right; left; exact h
  · rcases le_total a.reviewCount b.reviewCount with hc | hc
    · right; right; exact ⟨h.symm, hc⟩
    · left; right; exact ⟨h, hc⟩
  · left; left; exact h

/-- Stability of the sort on each rating/review-count class: sorting
does not reorder entities that are equal on both sort keys. -/
theorem mergeSort_filter_key (l : List FormattedPlace) (rv : ℚ) (cv : ℕ) :
    (l.mergeSort jsCompareLe).filter
        (fun p => decide (p.rating = rv ∧ p.reviewCount = cv))
      = l.filter (fun p => decide (p.rating = rv ∧ p.reviewCount = cv)) := by
  set p : FormattedPlace → Bool :=
    fun x => decide (x.rating = rv ∧ x.reviewCount = cv) with hp
  have hpw : (l.filter p).Pairwise fun a b => jsCompareLe a b = true := by
    apply List.pairwise_of_forall_mem_list
    intro a ha b hb
    have ha2 := List.of_mem_filter ha
    have hb2 := List.of_mem_filter hb
    rw [hp] at ha2 hb2
    simp only [decide_eq_true_eq] at ha2 hb2
    simp only [jsCompareLe, decide_eq_true_eq]
    right
    exact ⟨ha2.1.trans hb2.1.symm, le_of_eq (hb2.2.trans ha2.2.symm)⟩
  have h1 : List.Sublist (l.filter p) (l.mergeSort jsCompareLe) :=
    List.sublist_mergeSort jsCompareLe_trans jsCompareLe_total hpw (List.filter_sublist l)
  have h2 := h1.filter p
  rw [List.filter_filter] at h2
  have hpp : (fun a => p a && p a) = p := funext fun a => Bool.and_self _
  rw [hpp] at h2
  have h3 : ((l.mergeSort jsCompareLe).filter p).Perm (l.filter p) :=
    (List.mergeSort_perm l jsCompareLe).filter p
  exact (List.Sublist.eq_of_length h2 h3.length_eq.symm).symm

/-- C9.  The entity list of every successful handler answer is sorted
by rating descending with ties broken by review count descending, it
is a permutation of the deduplicated, formatted and filtered pre-sort
list, and the sort is stable: entities equal on both sort keys appear
in exactly their pre-sort (merge) order. -/
theorem c9_sorted_stable (cosd : ℚ → ℚ) (dist : ℚ → ℚ → ℚ → ℚ → ℚ)
    (provider : GroupProvider) (q : AdaptiveQuery) (lat lng : ℚ) (body : ResponseBody)
    (hlat : q.latitude = some lat) (hlng : q.longitude = some lng)
    (hok : adaptiveHandler cosd dist provider q = HandlerOutcome.ok body) :
    body.places.Pairwise
      (fun a b => b.rating < a.rating ∨ (a.rating = b.rating ∧ b.reviewCount ≤ a.reviewCount))
    ∧ body.places.Perm
        (formattedOf cosd dist provider lat lng (q.radius.getD 15) (q.type.getD "both")
          (q.minRating.getD (45 / 10)) (q.minReviews.getD 100))
    ∧ ∀ (rv : ℚ) (cv : ℕ),
        body.places.filter (fun p => decide (p.rating = rv ∧ p.reviewCount = cv))
          = (formattedOf cosd dist provider lat lng (q.radius.getD 15) (q.type.getD "both")
              (q.minRating.getD (45 / 10)) (q.minReviews.getD 100)).filter
              (fun p => decide (p.rating = rv ∧ p.reviewCount = cv)) := by
  obtain ⟨qlat, qlng, qr, qt, qmr, qmv⟩ := q
  simp only at hlat hlng ⊢
  subst hlat hlng
  simp only [adaptiveHandler, HandlerOutcome.ok.injEq] at hok
  subst hok
  simp only
  refine ⟨?_, List.mergeSort_perm _ jsCompareLe, fun rv cv => mergeSort_filter_key _ rv cv⟩
  have hs := List.sorted_mergeSort jsCompareLe_trans jsCompareLe_total
    (formattedOf cosd dist provider lat lng (qr.getD 15) (qt.getD "both")
      (qmr.getD (45 / 10)) (qmv.getD 100))
  refine hs.imp ?_
  intro a b hab
  simpa only [jsCompareLe, decide_eq_true_eq] using hab

/-- Concrete instantiation of `c9_sorted_stable`: the restaurant
request against the always-failing provider yields the empty, trivially
sorted list. -/
theorem c9_sorted_stable_witness :
    (List.Pairwise
      (fun a b : FormattedPlace =>
        b.rating < a.rating ∨ (a.rating = b.rating ∧ b.reviewCount ≤ a.reviewCount))
      []) := by
  have hok : adaptiveHandler (fun _ => 1) (fun _ _ _ _ => 0) (fun _ => alwaysFail) qSimple
      = HandlerOutcome.ok
          { location := { latitude := 0, longitude := 0 }
            totalFound := 0
            afterFilters := 0
            places := []
            metrics := { apiCalls := 1, uniquePlaces := 0 } } := by
    simp [adaptiveHandler, qSimple, totalApiCalls, groupOutcomes, typeGroups,
      alwaysFail_search, allPlacesOf, dedupById, formattedOf]
  exact (c9_sorted_stable (fun _ => 1) (fun _ _ _ _ => 0) (fun _ => alwaysFail)
    qSimple 0 0 _ rfl rfl hok).1

end AdaptiveTiling
